import Mathlib

/-!
Verification of the face-attendance application (`src/app.py`).

The development shallowly embeds the pure core of the program:
  * string helpers modelling the Python library calls the code uses
    (`str.split`, `str.replace`, `os.path.normpath`, `datetime.strptime`),
  * the attendance marking path (`mark_attendance`, the per-face body of
    `video_feed_attendance`'s generator),
  * the ledger readers (`load_today_attendance`, the CSV loop of
    `generate_report_data`),
  * the registration capture loop (`video_feed_register`'s generator),
  * the trainer (`train_face_recognizer`, `train_model_process`),
  * the `/train_model` endpoint as a two-thread interleaving machine.

External effects (camera, detector, file system, clock) appear as explicit
inputs: a frame is an event describing what the external calls returned or
whether they raised, and `datetime.now()` is a timestamp parameter.
-/

/-- Python `str.split(sep)` for a one-character separator, on character
lists: splits at every occurrence of `sep`, keeping empty pieces. -/
def splitChars (sep : Char) : List Char → List (List Char)
  | [] => [[]]
  | c :: rest =>
    let r := splitChars sep rest
    if c = sep then [] :: r
    else
      match r with
      | h :: t => (c :: h) :: t
      | [] => [[c]]

/-- Python `str.split(sep)` for a one-character separator. -/
def pySplit (s : String) (sep : Char) : List String :=
  (splitChars sep s.data).map (fun l => ⟨l⟩)

/-- Python `str.replace(pat, repl)` worker: scans the source character list
left to right, replacing non-overlapping occurrences of `pat`; the fuel is
the length of the scanned list (each step consumes at least one source
character when `pat` is nonempty). -/
def replChars (pat repl : List Char) : Nat → List Char → List Char
  | _, [] => []
  | 0, l => l
  | fuel + 1, c :: rest =>
    if pat.isPrefixOf (c :: rest) then
      repl ++ replChars pat repl fuel ((c :: rest).drop pat.length)
    else
      c :: replChars pat repl fuel rest

/-- Python `str.replace(pat, repl)`.  Every call site in `app.py` passes a
nonempty literal pattern, so the empty-pattern case is left as the
identity. -/
def pyReplace (s pat repl : String) : String :=
  if pat.data.isEmpty then s
  else ⟨replChars pat.data repl.data s.data.length s.data⟩

/-- Parse a nonempty all-digit character list as a decimal number, the way
`strptime`'s numeric directives consume their fields. -/
def parseNatDigits (l : List Char) : Option Nat :=
  if l.isEmpty then none
  else if l.all (fun c => c.isDigit) then
    some (l.foldl (fun a c => a * 10 + (c.toNat - 48)) 0)
  else none

/-- Calendar date as (year, month, day). -/
abbrev PyDate := Nat × Nat × Nat

/-- Model of `datetime.strptime(ts, "%Y-%m-%d %H:%M:%S").date()`:
returns the (year, month, day) triple when the string matches the format
with in-range fields, `none` when parsing raises `ValueError`. -/
def parseTs (s : String) : Option PyDate :=
  match pySplit s ' ' with
  | [d, t] =>
    match pySplit d '-', pySplit t ':' with
    | [y, mo, da], [h, mi, se] =>
      match parseNatDigits y.data, parseNatDigits mo.data, parseNatDigits da.data,
            parseNatDigits h.data, parseNatDigits mi.data, parseNatDigits se.data with
      | some yn, some mon, some dan, some hn, some minn, some sn =>
        if 1 ≤ mon ∧ mon ≤ 12 ∧ 1 ≤ dan ∧ dan ≤ 31 ∧ hn ≤ 23 ∧ minn ≤ 59 ∧ sn ≤ 61 then
          some (yn, mon, dan)
        else none
      | _, _, _, _, _, _ => none
    | _, _ => none
  | _ => none

/-- Model of `os.path.normpath(s).split(os.sep)` for a relative POSIX
path: empty and `.` components are dropped, `..` pops the previous
component when possible, and the empty result becomes `["."]`. -/
def normParts (s : String) : List String :=
  let comps := (pySplit s '/').filter (fun c => !(c == "" || c == "."))
  let newComps := comps.foldl
    (fun (acc : List String) c =>
      if c ≠ ".." ∨ acc = [] ∨ acc.getLast? = some ".." then acc ++ [c]
      else acc.dropLast) []
  if newComps = [] then ["."] else newComps

/-- Python dict lookup `d.get(k, dflt)` for a dict built from an
association list in insertion order: a later binding of the same key
overrides an earlier one. -/
def dictGet (d : List (Nat × String)) (k : Nat) (dflt : String) : String :=
  ((d.reverse).lookup k).getD dflt

/-- Python `set.add`: idempotent insertion into the membership list. -/
def setAdd (s : List String) (x : String) : List String :=
  if x ∈ s then s else x :: s

/-- The mutable attendance state of the process: the in-memory composite
set `attendance_marked_set` and the rows of `attendance.csv` (each row a
list of CSV fields). -/
structure AttState where
  marked : List String
  records : List (List String)
deriving DecidableEq, Repr

/-- Embedding of `mark_attendance` (app.py lines 219-238): split the
composite with `os.path.normpath(...).split(os.sep)`; on a 3-part label,
strip the name prefixes with `str.replace` and append the CSV row
`[dept, batch, student, ts]`, then add the composite to the in-memory set;
on any other shape, log and return without appending or adding. -/
def mark_attendance (composite ts : String) (st : AttState) : AttState :=
  match normParts composite with
  | [batchPart, deptPart, studentPart] =>
    let batchName := pyReplace batchPart "batch_" ""
    let deptName := pyReplace deptPart "department_" ""
    let studentName := pyReplace studentPart "student_" ""
    { records := st.records ++ [[deptName, batchName, studentName, ts]],
      marked := setAdd st.marked composite }
  | _ => st

/-- Fixed acceptance threshold of `video_feed_attendance`
(`RECOGNITION_THRESHOLD = 80`, app.py line 871). -/
def RECOGNITION_THRESHOLD : ℚ := 80

/-- What the external calls made for one detected face in the attendance
loop produced: the face-ROI grayscale conversion raised (caught, `continue`
to the next face), `recognizer.predict` raised (caught, `continue`), or
`predict` returned a label and a confidence score. -/
inductive FaceEv
  | roiCvtError
  | predictError
  | predicted (label : Nat) (conf : ℚ)
deriving DecidableEq, Repr

/-- The annotation the attendance loop draws for one face: the
"Model Not Trained" box, the "Face Not Recognized" box, the
"Attendance Marked: name" box, or the "Already Marked: name" box. -/
inductive FaceAnnot
  | modelNotTrained
  | notRecognized
  | marked (student : String)
  | already (student : String)
deriving DecidableEq, Repr

/-- Embedding of the per-face body of `video_feed_attendance`'s generator
(app.py lines 896-935).  `hasRec` is whether the session loaded a
recognizer; `invMap` is `inv_label_map` as the association list of
`(label, composite)` pairs in dict insertion order; `ts` stands for
`datetime.now()` at the marking call.  Returns the updated state and the
annotation drawn for the face (`none` when the face was skipped by a
caught exception). -/
def processFace (hasRec : Bool) (invMap : List (Nat × String)) (ev : FaceEv)
    (ts : String) (st : AttState) : AttState × Option FaceAnnot :=
  if hasRec then
    match ev with
    | .roiCvtError => (st, none)
    | .predictError => (st, none)
    | .predicted label conf =>
      let predictedComposite := dictGet invMap label "Unknown"
      if conf < RECOGNITION_THRESHOLD then
        let parts := pySplit predictedComposite '/'
        let studentName :=
          match parts with
          | [_, _, sp] => pyReplace sp "student_" ""
          | _ => "Unknown"
        if predictedComposite ∉ st.marked then
          (mark_attendance predictedComposite ts st, some (.marked studentName))
        else
          (st, some (.already studentName))
      else
        (st, some .notRecognized)
  else
    (st, some .modelNotTrained)

/-- Repeated Matched events for one prediction result: the attendance
session processes each timestamped event with `processFace`, threading the
state and collecting the per-event annotations. -/
def runMatched (invMap : List (Nat × String)) (label : Nat) (conf : ℚ) :
    List String → AttState → AttState × List (Option FaceAnnot)
  | [], st => (st, [])
  | ts :: rest, st =>
    let p := processFace true invMap (.predicted label conf) ts st
    let r := runMatched invMap label conf rest p.1
    (r.1, p.2 :: r.2)

/-- All detected faces of one attendance frame, processed in order. -/
def processFaces (hasRec : Bool) (invMap : List (Nat × String)) (ts : String) :
    List FaceEv → AttState → AttState × List (Option FaceAnnot)
  | [], st => (st, [])
  | f :: rest, st =>
    let p := processFace hasRec invMap f ts st
    let r := processFaces hasRec invMap ts rest p.1
    (r.1, p.2 :: r.2)

/-- What one iteration of the attendance frame loop encountered:
an unreadable or empty frame (logged, `continue`), a raising
`cv2.cvtColor` (caught, `continue`), a raising `mp_face.process` (no local
handler: the exception reaches the generator-level `except` and the stream
ends), or a processed frame carrying its detected faces and whether
`cv2.imencode` raised (also no local handler). -/
inductive AttFrameEv
  | emptyFrame
  | cvtError
  | detectError
  | frame (faces : List FaceEv) (encodeError : Bool)
deriving DecidableEq, Repr

/-- Result of running the attendance frame loop: final state, number of
frames emitted to the multipart stream, and whether the loop was ended by
an uncaught per-frame exception (as opposed to the transport closing). -/
structure AttResult where
  st : AttState
  emitted : Nat
  aborted : Bool
deriving DecidableEq, Repr

/-- Embedding of the frame loop of `video_feed_attendance`'s generator
(app.py lines 876-943).  The input list is the sequence of frame events
until the consumer closes the transport. -/
def runAtt (hasRec : Bool) (invMap : List (Nat × String)) (ts : String) :
    List AttFrameEv → AttState → AttResult
  | [], st => ⟨st, 0, false⟩
  | AttFrameEv.emptyFrame :: rest, st => runAtt hasRec invMap ts rest st
  | AttFrameEv.cvtError :: rest, st => runAtt hasRec invMap ts rest st
  | AttFrameEv.detectError :: _, st => ⟨st, 0, true⟩
  | AttFrameEv.frame faces encErr :: rest, st =>
    let st' := (processFaces hasRec invMap ts faces st).1
    if encErr then ⟨st', 0, true⟩
    else
      let r := runAtt hasRec invMap ts rest st'
      ⟨r.st, r.emitted + 1, r.aborted⟩

/-- One row of the read loop of `load_today_attendance` (app.py lines
82-92): a row with fewer than 4 fields is skipped; a row with exactly 4
fields is unpacked, its timestamp parsed (skip on `ValueError`) and, when
dated today, turned into the composite
`batch_<b>/department_<d>/student_<s>`; a row with more than 4 fields
makes the 4-way unpacking raise an uncaught `ValueError`. -/
def rowToday (today : PyDate) (row : List String) : Except Unit (Option String) :=
  if row.length < 4 then .ok none
  else
    match row with
    | [dept, batch, student, ts] =>
      match parseTs ts with
      | none => .ok none
      | some d =>
        if d = today then
          .ok (some ("batch_" ++ batch ++ "/department_" ++ dept ++ "/student_" ++ student))
        else .ok none
    | _ => .error ()

/-- Embedding of `load_today_attendance` (app.py lines 72-93) on the CSV
rows: the composite set rebuilt from today's rows, or an error when some
row raises. -/
def loadTodayAttendance (today : PyDate) : List (List String) → Except Unit (List String)
  | [] => .ok []
  | row :: rest =>
    match rowToday today row with
    | .error _ => .error ()
    | .ok none => loadTodayAttendance today rest
    | .ok (some comp) => (loadTodayAttendance today rest).map (comp :: ·)

/-- One row of the CSV loop of `generate_report_data` (app.py lines
524-533): skip on fewer than 4 fields, unpack (uncaught `ValueError` on
more than 4), filter on batch and department names, parse the timestamp
(skip on `ValueError`), collect `(student, date)`. -/
def reportRow (batchName deptName : String) (row : List String) :
    Except Unit (Option (String × PyDate)) :=
  if row.length < 4 then .ok none
  else
    match row with
    | [rowDept, rowBatch, rowStudent, ts] =>
      if rowBatch = batchName ∧ rowDept = deptName then
        match parseTs ts with
        | none => .ok none
        | some d => .ok (some (rowStudent, d))
      else .ok none
    | _ => .error ()

/-- The attendance data collected by `generate_report_data`'s CSV loop, or
an error when some row raises. -/
def reportAttendanceData (batchName deptName : String) :
    List (List String) → Except Unit (List (String × PyDate))
  | [] => .ok []
  | row :: rest =>
    match reportRow batchName deptName row with
    | .error _ => .error ()
    | .ok none => reportAttendanceData batchName deptName rest
    | .ok (some p) => (reportAttendanceData batchName deptName rest).map (p :: ·)

/-- What one iteration of the registration capture loop encountered: an
unreadable or empty frame (logged, `continue`), a raising `cv2.cvtColor`
(caught, `continue`), a raising `mp_face.process` (no local handler: the
generator-level `except` ends the stream), or a processed frame recording
whether a face was detected and whether `cv2.imwrite` or `cv2.imencode`
raised (neither has a local handler). -/
inductive RegEv
  | emptyFrame
  | cvtError
  | detectError
  | frame (hasFace saveError encodeError : Bool)
deriving DecidableEq, Repr

/-- How the registration capture loop ended: normal completion by the
5-sample break, an uncaught per-frame exception, or the camera/transport
ending the event stream first. -/
inductive CaptureOutcome
  | completed
  | aborted
  | ranOut
deriving DecidableEq, Repr

/-- Result of the registration capture loop: the completion flag drawn on
each emitted frame, the outcome, the final `registration_count`, and the
number of sample files written. -/
structure RegResult where
  outputs : List Bool
  outcome : CaptureOutcome
  count : Nat
  saved : Nat
deriving DecidableEq, Repr

/-- Embedding of the frame loop of `video_feed_register`'s generator
(app.py lines 782-832), with `c` the current `registration_count` and `s`
the number of files written so far.  A sample is saved only when a face
was detected and the count read under the lock is strictly below 5; after
the optional save the loop draws the completion banner when the count is
at least 5, encodes and emits the frame, and breaks when the count is at
least 5. -/
def runReg : List RegEv → Nat → Nat → RegResult
  | [], c, s => ⟨[], .ranOut, c, s⟩
  | RegEv.emptyFrame :: rest, c, s => runReg rest c s
  | RegEv.cvtError :: rest, c, s => runReg rest c s
  | RegEv.detectError :: _, c, s => ⟨[], .aborted, c, s⟩
  | RegEv.frame hasFace saveErr encErr :: rest, c, s =>
    if hasFace ∧ c < 5 then
      if saveErr then ⟨[], .aborted, c, s⟩
      else if encErr then ⟨[], .aborted, c + 1, s + 1⟩
      else if 5 ≤ c + 1 then ⟨[true], .completed, c + 1, s + 1⟩
      else
        let r := runReg rest (c + 1) (s + 1)
        ⟨false :: r.outputs, r.outcome, r.count, r.saved⟩
    else
      if encErr then ⟨[], .aborted, c, s⟩
      else if 5 ≤ c then ⟨[true], .completed, c, s⟩
      else
        let r := runReg rest c s
        ⟨false :: r.outputs, r.outcome, r.count, r.saved⟩

/-- One file met by the `os.walk` of `train_face_recognizer`: its
filename, the relative path of its directory (the composite label), and
the result of `cv2.imread` (`none` when the read failed, otherwise an
opaque image value). -/
structure SampleFile where
  fname : String
  composite : String
  img : Option Nat
deriving DecidableEq, Repr

/-- Python `file.lower().endswith(".jpg")`. -/
def isJpgName (s : String) : Bool :=
  (".jpg".data).isSuffixOf (s.data.map Char.toLower)

/-- One iteration of `train_face_recognizer`'s walk body (app.py lines
182-195): keep `.jpg` files whose image read succeeded; assign the
composite the next integer label (`current_label`, which always equals the
map size) when it is new; record the sample's label. -/
def labelStep (acc : List Nat × List (String × Nat)) (f : SampleFile) :
    List Nat × List (String × Nat) :=
  if isJpgName f.fname then
    match f.img with
    | none => acc
    | some _ =>
      match acc.2.lookup f.composite with
      | some l => (acc.1 ++ [l], acc.2)
      | none => (acc.1 ++ [acc.2.length], acc.2 ++ [(f.composite, acc.2.length)])
  else acc

/-- Embedding of `train_face_recognizer` (app.py lines 164-205): walk the
sample files, build the parallel label list and the composite-to-label
map, and return `none` (the `NoData` outcome) when zero usable images were
found; on success the labels and the map are persisted as the model
artifact. -/
def train_face_recognizer (files : List SampleFile) :
    Option (List Nat × List (String × Nat)) :=
  let r := files.foldl labelStep ([], [])
  if r.1.isEmpty then none else some r

/-- Embedding of `train_model_process` (app.py lines 207-216): run the
trainer; set `registration_complete` to true only when it returned a
recognizer, otherwise leave the flag as it was. -/
def train_model_process (files : List SampleFile) (registrationComplete : Bool) : Bool :=
  match train_face_recognizer files with
  | some _ => true
  | none => registrationComplete

/-- Python `{v: k for k, v in label_map.items()}`: the inverted
association list, still in insertion order. -/
def invertMap (m : List (String × Nat)) : List (Nat × String) :=
  m.map (fun p => (p.2, p.1))

/-- Program points of one request through the `/train_model` handler
(app.py lines 842-849): `start` before `with global_lock`; `locked` inside
the block before the count check; `checked` having observed
`registration_count ≥ 5`, still holding the lock; `earlyChecked` having
observed `< 5` (early return path), still holding the lock; `released`
after the `with` block exits, about to call `Thread(...).start()`; `done`
after launching the training thread; `earlyDone` returned without
launching. -/
inductive TPC
  | start
  | locked
  | checked
  | earlyChecked
  | released
  | done
  | earlyDone
deriving DecidableEq, Repr

/-- Shared state of two concurrent `/train_model` requests: whether
`global_lock` is free, the `registration_count` they read (nothing in the
handler writes it), the number of training threads launched so far, and
each request's program point. -/
structure TMState where
  lockFree : Bool
  count : Nat
  launches : Nat
  pc0 : TPC
  pc1 : TPC
deriving DecidableEq, Repr

/-- One atomic step of a request at program point `pc`: returns the new
point, the new lock state, and how many training threads were launched by
the step. -/
def stepPC (pc : TPC) (lockFree : Bool) (count : Nat) : TPC × Bool × Nat :=
  match pc with
  | .start => if lockFree then (.locked, false, 0) else (.start, lockFree, 0)
  | .locked => if count < 5 then (.earlyChecked, lockFree, 0) else (.checked, lockFree, 0)
  | .checked => (.released, true, 0)
  | .earlyChecked => (.earlyDone, true, 0)
  | .released => (.done, lockFree, 1)
  | .done => (.done, lockFree, 0)
  | .earlyDone => (.earlyDone, lockFree, 0)

/-- Scheduler step: advance the request named by `tid`. -/
def tmStep (tid : Bool) (s : TMState) : TMState :=
  if tid then
    let r := stepPC s.pc1 s.lockFree s.count
    { s with pc1 := r.1, lockFree := r.2.1, launches := s.launches + r.2.2 }
  else
    let r := stepPC s.pc0 s.lockFree s.count
    { s with pc0 := r.1, lockFree := r.2.1, launches := s.launches + r.2.2 }

/-- Run two concurrent `/train_model` requests under the given
interleaving schedule. -/
def tmRun (sched : List Bool) (s : TMState) : TMState :=
  sched.foldl (fun s t => tmStep t s) s

/-- Initial state of two concurrent `/train_model` requests when `c`
samples have been captured. -/
def tmInit (c : Nat) : TMState := ⟨true, c, 0, .start, .start⟩

/-- How many training threads a request at point `pc` has launched. -/
def tpcLaunched (pc : TPC) : Nat := if pc = TPC.done then 1 else 0

/-- Invariant of two concurrent `/train_model` requests once at least 5
samples are captured: the count stays at least 5, the launch counter
equals the number of requests that reached `done`, and neither request is
on the early-return path. -/
def tmInv (s : TMState) : Prop :=
  5 ≤ s.count ∧ s.launches = tpcLaunched s.pc0 + tpcLaunched s.pc1
  ∧ s.pc0 ≠ TPC.earlyChecked ∧ s.pc0 ≠ TPC.earlyDone
  ∧ s.pc1 ≠ TPC.earlyChecked ∧ s.pc1 ≠ TPC.earlyDone

/-- Concrete sample files of the spec's scenario: five images each for
Carol and Dave. -/
def twoStudentFiles : List SampleFile :=
  [⟨"face_0_1.jpg", "batch_A/department_B/student_Carol", some 1⟩,
   ⟨"face_1_2.jpg", "batch_A/department_B/student_Carol", some 2⟩,
   ⟨"face_0_3.jpg", "batch_A/department_B/student_Dave", some 3⟩,
   ⟨"face_1_4.jpg", "batch_A/department_B/student_Dave", some 4⟩]


/-! ## Theorems -/

/-- C3: in the attendance loop, acceptance requires the confidence score
to be strictly below the fixed threshold 80; a prediction whose
confidence is at least the threshold takes the "Face Not Recognized"
branch, leaving the attendance state untouched and never reaching the
marking and dedup logic. -/
theorem c3_threshold_reject (invMap : List (Nat × String)) (label : Nat) (conf : ℚ)
    (ts : String) (st : AttState) (h : RECOGNITION_THRESHOLD ≤ conf) :
    processFace true invMap (.predicted label conf) ts st = (st, some .notRecognized) := by
  have h' : ¬ conf < RECOGNITION_THRESHOLD := not_lt.mpr h
  simp [processFace, h']

/-- Witness for `c3_threshold_reject`: a prediction with confidence
exactly 80 is rejected. -/
theorem c3_threshold_reject_check :
    processFace true [(0, "batch_A/department_B/student_Carol")] (.predicted 0 80)
        "2026-10-12 09:00:00" ⟨[], []⟩
      = (⟨[], []⟩, some .notRecognized) :=
  c3_threshold_reject _ 0 80 _ _ (by decide)

theorem foldl_labelStep_unusable :
    ∀ (files : List SampleFile) (acc : List Nat × List (String × Nat)),
    (∀ f ∈ files, ¬(isJpgName f.fname = true ∧ f.img.isSome = true)) →
    files.foldl labelStep acc = acc := by
  intro files
  induction files with
  | nil => intro acc _; rfl
  | cons f rest ih =>
    intro acc h
    have hf := h f (List.mem_cons_self ..)
    have hrest : ∀ g ∈ rest, ¬(isJpgName g.fname = true ∧ g.img.isSome = true) :=
      fun g hg => h g (List.mem_cons_of_mem _ hg)
    have hstep : labelStep acc f = acc := by
      unfold labelStep
      by_cases hj : isJpgName f.fname
      · cases him : f.img with
        | none => simp [hj, him]
        | some v => exact absurd ⟨hj, by simp [him]⟩ hf
      · simp [hj]
    rw [List.foldl_cons, hstep]
    exact ih acc hrest

/-- C5: a training run over zero usable sample images returns the
`NoData` outcome (`None` model), and `train_model_process` leaves
`registration_complete` exactly as it was. -/
theorem c5_no_data (files : List SampleFile) (b : Bool)
    (h : ∀ f ∈ files, ¬(isJpgName f.fname = true ∧ f.img.isSome = true)) :
    train_face_recognizer files = none ∧ train_model_process files b = b := by
  have hn : train_face_recognizer files = none := by
    unfold train_face_recognizer
    rw [foldl_labelStep_unusable files ([], []) h]
    rfl
  refine ⟨hn, ?_⟩
  unfold train_model_process
  rw [hn]

/-- Witness for `c5_no_data`: with no stored samples, training fails and
the flag stays `true` when it already was. -/
theorem c5_no_data_check :
    train_face_recognizer [] = none ∧ train_model_process [] true = true :=
  c5_no_data [] true (by simp)

theorem rowToday_error_of_long (today : PyDate) (row : List String)
    (h : 4 < row.length) : rowToday today row = .error () := by
  rcases row with _ | ⟨a, row⟩
  · simp at h
  rcases row with _ | ⟨b, row⟩
  · simp at h
  rcases row with _ | ⟨c, row⟩
  · simp at h
  rcases row with _ | ⟨d, row⟩
  · simp at h
  rcases row with _ | ⟨e, row⟩
  · simp at h
  have hlen : ¬ ((a :: b :: c :: d :: e :: row).length < 4) := by simp
  unfold rowToday
  rw [if_neg hlen]

theorem reportRow_error_of_long (bn dn : String) (row : List String)
    (h : 4 < row.length) : reportRow bn dn row = .error () := by
  rcases row with _ | ⟨a, row⟩
  · simp at h
  rcases row with _ | ⟨b, row⟩
  · simp at h
  rcases row with _ | ⟨c, row⟩
  · simp at h
  rcases row with _ | ⟨d, row⟩
  · simp at h
  rcases row with _ | ⟨e, row⟩
  · simp at h
  have hlen : ¬ ((a :: b :: c :: d :: e :: row).length < 4) := by simp
  unfold reportRow
  rw [if_neg hlen]

theorem loadToday_error_of_long (today : PyDate) (rows : List (List String))
    (h : ∃ r ∈ rows, 4 < r.length) :
    loadTodayAttendance today rows = .error () := by
  induction rows with
  | nil => obtain ⟨r, hr, _⟩ := h; exact absurd hr (List.not_mem_nil _)
  | cons row rest ih =>
    obtain ⟨r, hr, hlen⟩ := h
    rcases List.mem_cons.mp hr with rfl | hr'
    · unfold loadTodayAttendance
      rw [rowToday_error_of_long today r hlen]
    · have hrec := ih ⟨r, hr', hlen⟩
      unfold loadTodayAttendance
      cases hrt : rowToday today row with
      | error e => rfl
      | ok o =>
        cases o with
        | none => exact hrec
        | some comp => rw [hrec]; rfl

theorem report_error_of_long (bn dn : String) (rows : List (List String))
    (h : ∃ r ∈ rows, 4 < r.length) :
    reportAttendanceData bn dn rows = .error () := by
  induction rows with
  | nil => obtain ⟨r, hr, _⟩ := h; exact absurd hr (List.not_mem_nil _)
  | cons row rest ih =>
    obtain ⟨r, hr, hlen⟩ := h
    rcases List.mem_cons.mp hr with rfl | hr'
    · unfold reportAttendanceData
      rw [reportRow_error_of_long bn dn r hlen]
    · have hrec := ih ⟨r, hr', hlen⟩
      unfold reportAttendanceData
      cases hrt : reportRow bn dn row with
      | error e => rfl
      | ok o =>
        cases o with
        | none => exact hrec
        | some p => rw [hrec]; rfl

/-- C10: a ledger row with more than 4 fields makes the 4-way row
unpacking raise, so both the dedup-set reconstruction and the report
aggregation abort instead of skipping it; rows with fewer than 4 fields,
and 4-field rows with an unparsable timestamp, are skipped gracefully. -/
theorem c10_overlong_rows (today : PyDate) (bn dn : String) (rows : List (List String)) :
    ((∃ r ∈ rows, 4 < r.length) →
      loadTodayAttendance today rows = .error ()
      ∧ reportAttendanceData bn dn rows = .error ())
    ∧ (∀ (row : List String) rest, row.length < 4 →
      loadTodayAttendance today (row :: rest) = loadTodayAttendance today rest
      ∧ reportAttendanceData bn dn (row :: rest) = reportAttendanceData bn dn rest)
    ∧ (∀ (a b c ts : String) rest, parseTs ts = none →
      loadTodayAttendance today ([a, b, c, ts] :: rest) = loadTodayAttendance today rest
      ∧ reportAttendanceData bn dn ([a, b, c, ts] :: rest) = reportAttendanceData bn dn rest) := by
  refine ⟨fun h => ⟨loadToday_error_of_long today rows h, report_error_of_long bn dn rows h⟩,
    ?_, ?_⟩
  · intro row rest hlen
    have hrt : rowToday today row = .ok none := by
      unfold rowToday
      rw [if_pos hlen]
    have hrr : reportRow bn dn row = .ok none := by
      unfold reportRow
      rw [if_pos hlen]
    constructor
    · rw [loadTodayAttendance, hrt]
    · rw [reportAttendanceData, hrr]
  · intro a b c ts rest hts
    have hlen : ¬ (([a, b, c, ts] : List String).length < 4) := by simp
    have hrt : rowToday today [a, b, c, ts] = .ok none := by
      unfold rowToday
      rw [if_neg hlen]
      simp [hts]
    have hrr : reportRow bn dn [a, b, c, ts] = .ok none := by
      unfold reportRow
      rw [if_neg hlen]
      by_cases hf : b = bn ∧ a = dn <;> simp [hf, hts]
    constructor
    · rw [loadTodayAttendance, hrt]
    · rw [reportAttendanceData, hrr]

/-- Witness for `c10_overlong_rows`: a 5-field row makes both readers
raise. -/
theorem c10_overlong_rows_check :
    loadTodayAttendance (2026, 10, 12) [["D", "B", "S", "2026-10-12 09:00:00", "extra"]]
      = .error ()
    ∧ reportAttendanceData "B" "D" [["D", "B", "S", "2026-10-12 09:00:00", "extra"]]
      = .error () :=
  (c10_overlong_rows (2026, 10, 12) "B" "D" _).1
    ⟨["D", "B", "S", "2026-10-12 09:00:00", "extra"], by simp, by simp⟩

/-- Counterexample for C6: when the predicted label is absent from the
map and the confidence is below the threshold, the face IS annotated as a
marked attendance ("Attendance Marked: Unknown"), contradicting the
claim that the sentinel is never annotated as marked (no record is
appended, though). -/
theorem c6_unknown_counterexample :
    processFace true [(0, "batch_A/department_B/student_Carol")] (.predicted 5 40)
        "2026-10-12 09:00:00" ⟨[], []⟩
      = (⟨[], []⟩, some (.marked "Unknown")) := by decide

/-- C6 (amended): a predicted label absent from the map resolves to the
sentinel "Unknown"; no attendance record is appended and nothing crashes
(`mark_attendance` returns the state unchanged on the 1-part label), but
when the confidence is below the threshold the face is annotated
"Attendance Marked: Unknown" rather than as not-matched; at or above the
threshold it is annotated "Face Not Recognized". -/
theorem c6_unknown_label (invMap : List (Nat × String)) (label : Nat) (conf : ℚ)
    (ts : String) (st : AttState)
    (hl : (invMap.reverse).lookup label = none)
    (hm : "Unknown" ∉ st.marked) :
    dictGet invMap label "Unknown" = "Unknown"
    ∧ processFace true invMap (.predicted label conf) ts st
      = (st, some (if conf < RECOGNITION_THRESHOLD
          then FaceAnnot.marked "Unknown" else FaceAnnot.notRecognized)) := by
  have hd : dictGet invMap label "Unknown" = "Unknown" := by
    unfold dictGet
    rw [hl]
    rfl
  refine ⟨hd, ?_⟩
  have hp : pySplit "Unknown" '/' = ["Unknown"] := by decide
  have hmk : mark_attendance "Unknown" ts st = st := by
    unfold mark_attendance
    have hn : normParts "Unknown" = ["Unknown"] := by decide
    rw [hn]
  by_cases hc : conf < RECOGNITION_THRESHOLD
  · simp [processFace, hd, hc, hp, hm, hmk]
  · simp [processFace, hd, hc]

/-- Witness for `c6_unknown_label`: an unknown label at confidence 100 is
annotated "Face Not Recognized" with the state untouched. -/
theorem c6_unknown_label_check :
    processFace true [(0, "batch_A/department_B/student_Carol")] (.predicted 5 100)
        "2026-10-12 09:00:00" ⟨[], []⟩
      = (⟨[], []⟩, some .notRecognized) := by
  have h := c6_unknown_label [(0, "batch_A/department_B/student_Carol")] 5 100
    "2026-10-12 09:00:00" ⟨[], []⟩ (by decide) (by decide)
  exact h.2.trans (by decide)

theorem runMatched_already (invMap : List (Nat × String)) (label : Nat) (conf : ℚ)
    (c b d s' : String)
    (hmap : dictGet invMap label "Unknown" = c)
    (hconf : conf < RECOGNITION_THRESHOLD)
    (hsplit : pySplit c '/' = [b, d, s']) :
    ∀ (tss : List String) (st : AttState), c ∈ st.marked →
      runMatched invMap label conf tss st
        = (st, List.replicate tss.length (some (.already (pyReplace s' "student_" "")))) := by
  intro tss
  induction tss with
  | nil => intro st _; rfl
  | cons ts rest ih =>
    intro st hm
    have hface : processFace true invMap (.predicted label conf) ts st
        = (st, some (.already (pyReplace s' "student_" ""))) := by
      simp [processFace, hmap, hconf, hsplit, hm]
    simp [runMatched, hface, ih st hm, List.replicate_succ]

/-- C1: for a fixed 3-part Identity not yet marked, processing any number
of Matched events in an attendance session appends exactly one ledger row
(on the first event), adds the composite to the in-memory marked set, and
annotates the first event "Attendance Marked" and every later event
"Already Marked" with no further append. -/
theorem c1_daily_dedup (invMap : List (Nat × String)) (label : Nat) (conf : ℚ)
    (ts1 : String) (tss : List String) (st : AttState) (c b d s' : String)
    (hmap : dictGet invMap label "Unknown" = c)
    (hconf : conf < RECOGNITION_THRESHOLD)
    (hsplit : pySplit c '/' = [b, d, s'])
    (hnorm : normParts c = [b, d, s'])
    (hmem : c ∉ st.marked) :
    (runMatched invMap label conf (ts1 :: tss) st).1.records
        = st.records ++ [[pyReplace d "department_" "", pyReplace b "batch_" "",
            pyReplace s' "student_" "", ts1]]
    ∧ (runMatched invMap label conf (ts1 :: tss) st).1.marked = c :: st.marked
    ∧ (runMatched invMap label conf (ts1 :: tss) st).2
        = some (FaceAnnot.marked (pyReplace s' "student_" ""))
          :: List.replicate tss.length (some (FaceAnnot.already (pyReplace s' "student_" ""))) := by
  have hface : processFace true invMap (.predicted label conf) ts1 st
      = (mark_attendance c ts1 st, some (.marked (pyReplace s' "student_" ""))) := by
    simp [processFace, hmap, hconf, hsplit, hmem]
  have hmark : mark_attendance c ts1 st
      = ⟨c :: st.marked, st.records ++ [[pyReplace d "department_" "",
          pyReplace b "batch_" "", pyReplace s' "student_" "", ts1]]⟩ := by
    unfold mark_attendance
    rw [hnorm]
    simp [setAdd, hmem]
  have hin : c ∈ (mark_attendance c ts1 st).marked := by
    rw [hmark]
    exact List.mem_cons_self ..
  have hrest := runMatched_already invMap label conf c b d s' hmap hconf hsplit tss _ hin
  simp only [runMatched, hface]
  rw [hrest, hmark]
  simp

/-- Witness for `c1_daily_dedup`: two Matched events for Carol append one
row, mark her once, and annotate the second event "Already Marked". -/
theorem c1_daily_dedup_check :
    (runMatched [(0, "batch_A/department_B/student_Carol")] 0 40
        ["2026-10-12 09:00:00", "2026-10-12 09:05:00"] ⟨[], []⟩).1.records
      = [["B", "A", "Carol", "2026-10-12 09:00:00"]] := by
  have h := c1_daily_dedup [(0, "batch_A/department_B/student_Carol")] 0 40
    "2026-10-12 09:00:00" ["2026-10-12 09:05:00"] ⟨[], []⟩
    "batch_A/department_B/student_Carol" "batch_A" "department_B" "student_Carol"
    (by decide) (by decide) (by decide) (by decide) (by decide)
  exact h.1.trans (by decide)

theorem loadToday_append (today : PyDate) (row : List String) (comp : String)
    (hr : rowToday today row = .ok (some comp)) :
    ∀ (rows : List (List String)) (s0 : List String),
      loadTodayAttendance today rows = .ok s0 →
      loadTodayAttendance today (rows ++ [row]) = .ok (s0 ++ [comp]) := by
  intro rows
  induction rows with
  | nil =>
    intro s0 h0
    have hs : ([] : List String) = s0 := by
      have : Except.ok (ε := Unit) ([] : List String) = .ok s0 := h0
      injection this
    rw [List.nil_append, ← hs, List.nil_append]
    rw [loadTodayAttendance, hr]
    rfl
  | cons r rest ih =>
    intro s0 h0
    rw [List.cons_append, loadTodayAttendance]
    rw [loadTodayAttendance] at h0
    cases hrt : rowToday today r with
    | error e =>
      rw [hrt] at h0
      exact absurd h0 (by simp)
    | ok o =>
      rw [hrt] at h0
      cases o with
      | none => exact ih s0 h0
      | some c' =>
        cases hrec : loadTodayAttendance today rest with
        | error e =>
          rw [hrec] at h0
          exact absurd h0 (by simp [Except.map])
        | ok s' =>
          rw [hrec] at h0
          have hs : c' :: s' = s0 := by
            have : Except.ok (ε := Unit) (c' :: s') = .ok s0 := h0
            injection this
          rw [ih s' hrec, ← hs]
          rfl

/-- Counterexample for C4: the Identity
`batch_batch_x/department_D/student_S` gets a record appended by
`mark_attendance`, but `str.replace` removes every occurrence of
`"batch_"`, so the stored batch name is `x` and the reloaded set contains
`batch_x/department_D/student_S` instead of the original Identity. -/
theorem c4_roundtrip_counterexample :
    (loadTodayAttendance (2026, 10, 12)
        (mark_attendance "batch_batch_x/department_D/student_S"
          "2026-10-12 09:00:00" ⟨[], []⟩).records
      = .ok ["batch_x/department_D/student_S"])
    ∧ "batch_batch_x/department_D/student_S" ∉ ["batch_x/department_D/student_S"] :=
  ⟨rfl, by decide⟩

/-- C4 (amended): for an Identity whose name components survive the
replace-all prefix stripping (in particular whenever `B`, `D`, `S` do not
themselves contain the strings "batch_", "department_", "student_"), a
record appended by `mark_attendance` with a timestamp dated today is
reconstructed by a fresh `load_today_attendance` into a set containing the
Identity, with no in-memory state carried over. -/
theorem c4_restart_roundtrip (B D S ts : String) (today : PyDate)
    (st : AttState) (s0 : List String)
    (hnorm : normParts ("batch_" ++ B ++ "/department_" ++ D ++ "/student_" ++ S)
        = ["batch_" ++ B, "department_" ++ D, "student_" ++ S])
    (hb : pyReplace ("batch_" ++ B) "batch_" "" = B)
    (hd : pyReplace ("department_" ++ D) "department_" "" = D)
    (hs : pyReplace ("student_" ++ S) "student_" "" = S)
    (hts : parseTs ts = some today)
    (hok : loadTodayAttendance today st.records = .ok s0) :
    loadTodayAttendance today
        (mark_attendance ("batch_" ++ B ++ "/department_" ++ D ++ "/student_" ++ S) ts st).records
      = .ok (s0 ++ ["batch_" ++ B ++ "/department_" ++ D ++ "/student_" ++ S])
    ∧ ("batch_" ++ B ++ "/department_" ++ D ++ "/student_" ++ S)
        ∈ s0 ++ ["batch_" ++ B ++ "/department_" ++ D ++ "/student_" ++ S] := by
  have hmark : (mark_attendance ("batch_" ++ B ++ "/department_" ++ D ++ "/student_" ++ S) ts st).records
      = st.records ++ [[D, B, S, ts]] := by
    unfold mark_attendance
    rw [hnorm]
    simp [hb, hd, hs]
  have hrow : rowToday today [D, B, S, ts]
      = .ok (some ("batch_" ++ B ++ "/department_" ++ D ++ "/student_" ++ S)) := by
    unfold rowToday
    have hlen : ¬ (([D, B, S, ts] : List String).length < 4) := by simp
    rw [if_neg hlen]
    simp [hts]
  rw [hmark]
  refine ⟨loadToday_append today [D, B, S, ts] _ hrow st.records s0 hok, ?_⟩
  exact List.mem_append_right _ (List.mem_singleton.mpr rfl)

/-- Witness for `c4_restart_roundtrip`: Carol's record, written today,
is reconstructed into a set containing her Identity. -/
theorem c4_restart_roundtrip_check :
    loadTodayAttendance (2026, 10, 12)
        (mark_attendance ("batch_" ++ "A" ++ "/department_" ++ "B" ++ "/student_" ++ "Carol")
          "2026-10-12 09:00:00" ⟨[], []⟩).records
      = .ok ([] ++ ["batch_" ++ "A" ++ "/department_" ++ "B" ++ "/student_" ++ "Carol"]) :=
  (c4_restart_roundtrip "A" "B" "Carol" "2026-10-12 09:00:00" (2026, 10, 12) ⟨[], []⟩ []
    (by decide) (by decide) (by decide) (by decide) (by decide) rfl).1

theorem getLast?_cons_of_getLast? {α : Type} (a b : α) (l : List α)
    (h : l.getLast? = some b) : (a :: l).getLast? = some b := by
  cases l with
  | nil => simp at h
  | cons x xs => rw [List.getLast?_cons_cons]; exact h

theorem runReg_invariant : ∀ (events : List RegEv) (c s : Nat),
    (runReg events c s).saved + c = s + (runReg events c s).count
    ∧ c ≤ (runReg events c s).count
    ∧ (runReg events c s).count ≤ max c 5
    ∧ ((runReg events c s).outcome = CaptureOutcome.completed →
        5 ≤ (runReg events c s).count
        ∧ (runReg events c s).outputs.getLast? = some true) := by
  intro events
  induction events with
  | nil =>
    intro c s
    refine ⟨by simp [runReg], by simp [runReg], by simp [runReg] <;> omega, ?_⟩
    intro hco
    simp [runReg] at hco
  | cons ev rest ih =>
    intro c s
    cases ev with
    | emptyFrame => simpa [runReg] using ih c s
    | cvtError => simpa [runReg] using ih c s
    | detectError =>
      refine ⟨by simp [runReg], by simp [runReg], by simp [runReg] <;> omega, ?_⟩
      intro hco
      simp [runReg] at hco
    | frame hasFace saveErr encErr =>
      by_cases h1 : (hasFace : Prop) ∧ c < 5
      · cases saveErr with
        | true =>
          have he : runReg (RegEv.frame hasFace true encErr :: rest) c s
              = ⟨[], .aborted, c, s⟩ := by
            rw [runReg, if_pos h1]
            try simp
          rw [he]
          refine ⟨by simp <;> omega, by simp <;> omega, by simp <;> omega, ?_⟩
          intro hco
          simp at hco
        | false =>
          cases encErr with
          | true =>
            have he : runReg (RegEv.frame hasFace false true :: rest) c s
                = ⟨[], .aborted, c + 1, s + 1⟩ := by
              rw [runReg, if_pos h1]
              try simp
            rw [he]
            refine ⟨by simp <;> omega, by simp <;> omega, by simp <;> omega, ?_⟩
            intro hco
            simp at hco
          | false =>
            by_cases h3 : 5 ≤ c + 1
            · have h3' : 4 ≤ c := by omega
              have he : runReg (RegEv.frame hasFace false false :: rest) c s
                  = ⟨[true], .completed, c + 1, s + 1⟩ := by
                rw [runReg, if_pos h1]
                simp [h3, h3']
              rw [he]
              refine ⟨by simp <;> omega, by simp <;> omega, by simp <;> omega,
                fun _ => ⟨by simp <;> omega, by simp⟩⟩
            · have h3' : ¬ (4 ≤ c) := by omega
              obtain ⟨ih1, ih2, ih3, ih4⟩ := ih (c + 1) (s + 1)
              have he : runReg (RegEv.frame hasFace false false :: rest) c s
                  = ⟨false :: (runReg rest (c + 1) (s + 1)).outputs,
                     (runReg rest (c + 1) (s + 1)).outcome,
                     (runReg rest (c + 1) (s + 1)).count,
                     (runReg rest (c + 1) (s + 1)).saved⟩ := by
                rw [runReg, if_pos h1]
                simp [h3, h3']
              rw [he]
              refine ⟨by simp <;> omega, by simp <;> omega, by simp <;> omega, ?_⟩
              intro hco
              simp at hco ⊢
              obtain ⟨hc5, hlast⟩ := ih4 hco
              exact ⟨by omega, getLast?_cons_of_getLast? _ _ _ hlast⟩
      · cases encErr with
        | true =>
          have he : runReg (RegEv.frame hasFace saveErr true :: rest) c s
              = ⟨[], .aborted, c, s⟩ := by
            rw [runReg, if_neg h1]
            try simp
          rw [he]
          refine ⟨by simp <;> omega, by simp <;> omega, by simp <;> omega, ?_⟩
          intro hco
          simp at hco
        | false =>
          by_cases h3 : 5 ≤ c
          · have he : runReg (RegEv.frame hasFace saveErr false :: rest) c s
                = ⟨[true], .completed, c, s⟩ := by
              rw [runReg, if_neg h1]
              simp [h3]
            rw [he]
            refine ⟨by simp <;> omega, by simp <;> omega, by simp <;> omega,
              fun _ => ⟨by simp <;> omega, by simp⟩⟩
          · obtain ⟨ih1, ih2, ih3, ih4⟩ := ih c s
            have he : runReg (RegEv.frame hasFace saveErr false :: rest) c s
                = ⟨false :: (runReg rest c s).outputs,
                   (runReg rest c s).outcome,
                   (runReg rest c s).count,
                   (runReg rest c s).saved⟩ := by
              rw [runReg, if_neg h1]
              simp [h3]
            rw [he]
            refine ⟨by simp <;> omega, by simp <;> omega, by simp <;> omega, ?_⟩
            intro hco
            simp at hco ⊢
            obtain ⟨hc5, hlast⟩ := ih4 hco
            exact ⟨hc5, getLast?_cons_of_getLast? _ _ _ hlast⟩

/-- C2: in a registration session started with count 0, at most 5 sample
files are ever persisted (each save is guarded by the count being
strictly below 5), and when the loop terminates by completion it does so
on the frame that accepted the 5th sample: the count and save total are
exactly 5 and the final emitted frame carries the completion
annotation. -/
theorem c2_capture_bound (events : List RegEv) :
    (runReg events 0 0).saved ≤ 5
    ∧ ((runReg events 0 0).outcome = CaptureOutcome.completed →
        (runReg events 0 0).saved = 5 ∧ (runReg events 0 0).count = 5
        ∧ (runReg events 0 0).outputs.getLast? = some true) := by
  obtain ⟨h1, h2, h3, h4⟩ := runReg_invariant events 0 0
  refine ⟨by omega, fun hc => ?_⟩
  obtain ⟨h5, h6⟩ := h4 hc
  exact ⟨by omega, by omega, h6⟩

/-- Witness for `c2_capture_bound`: five face frames complete the session
with exactly 5 saves. -/
theorem c2_capture_bound_check :
    (runReg [RegEv.frame true false false, RegEv.frame true false false,
        RegEv.frame true false false, RegEv.frame true false false,
        RegEv.frame true false false] 0 0).outcome = CaptureOutcome.completed
    ∧ (runReg [RegEv.frame true false false, RegEv.frame true false false,
        RegEv.frame true false false, RegEv.frame true false false,
        RegEv.frame true false false] 0 0).saved = 5 :=
  ⟨by decide, ((c2_capture_bound _).2 (by decide)).1⟩

/-- Counterexample for C7: a detector error inside the per-frame body of
the registration loop has no local handler; the generator-level handler
ends the stream, so no frame is emitted and the following valid frame is
never processed, contradicting the claim that per-frame errors never
terminate the stream. -/
theorem c7_perframe_error_counterexample :
    runReg [RegEv.detectError, RegEv.frame true false false] 0 0
      = ⟨[], CaptureOutcome.aborted, 0, 0⟩ := by decide

/-- C7 (amended): inside the per-frame bodies, only empty frames, frame
color-conversion errors and, per face in the attendance loop, ROI
conversion and prediction errors are recovered locally with the loop
continuing; errors raised by the detector, by the sample save, or by the
frame encoding reach the generator-level handler, which logs, releases
the camera and ends the stream. -/
theorem c7_error_recovery (hasRec : Bool) (invMap : List (Nat × String)) (ts : String) :
    (∀ (rest : List RegEv) (c s : Nat),
      runReg (RegEv.emptyFrame :: rest) c s = runReg rest c s)
    ∧ (∀ (rest : List RegEv) (c s : Nat),
      runReg (RegEv.cvtError :: rest) c s = runReg rest c s)
    ∧ (∀ (rest : List RegEv) (c s : Nat),
      (runReg (RegEv.detectError :: rest) c s).outcome = CaptureOutcome.aborted)
    ∧ (∀ (rest : List RegEv) (e : Bool),
      (runReg (RegEv.frame true true e :: rest) 0 0).outcome = CaptureOutcome.aborted)
    ∧ (∀ (rest : List RegEv) (hf : Bool),
      (runReg (RegEv.frame hf false true :: rest) 0 0).outcome = CaptureOutcome.aborted)
    ∧ (∀ (rest : List AttFrameEv) (st : AttState),
      runAtt hasRec invMap ts (AttFrameEv.emptyFrame :: rest) st
        = runAtt hasRec invMap ts rest st)
    ∧ (∀ (rest : List AttFrameEv) (st : AttState),
      runAtt hasRec invMap ts (AttFrameEv.cvtError :: rest) st
        = runAtt hasRec invMap ts rest st)
    ∧ (∀ (rest : List AttFrameEv) (st : AttState),
      (runAtt hasRec invMap ts (AttFrameEv.detectError :: rest) st).aborted = true)
    ∧ (∀ (faces : List FaceEv) (rest : List AttFrameEv) (st : AttState),
      (runAtt hasRec invMap ts (AttFrameEv.frame faces true :: rest) st).aborted = true)
    ∧ (∀ st : AttState, processFace true invMap FaceEv.roiCvtError ts st = (st, none))
    ∧ (∀ st : AttState, processFace true invMap FaceEv.predictError ts st = (st, none)) := by
  refine ⟨fun rest c s => rfl, fun rest c s => rfl, fun rest c s => rfl, ?_, ?_,
    fun rest st => rfl, fun rest st => rfl, fun rest st => rfl,
    fun faces rest st => rfl, fun st => rfl, fun st => rfl⟩
  · intro rest e
    rfl
  · intro rest hf
    cases hf <;> rfl

theorem labelStep_snd_range (acc : List Nat × List (String × Nat)) (f : SampleFile)
    (h : acc.2.map Prod.snd = List.range acc.2.length) :
    (labelStep acc f).2.map Prod.snd = List.range (labelStep acc f).2.length := by
  unfold labelStep
  by_cases hj : isJpgName f.fname
  · simp only [hj, if_true]
    cases him : f.img with
    | none => simpa using h
    | some v =>
      cases hl : acc.2.lookup f.composite with
      | some l => simpa using h
      | none =>
        simp only [List.map_append, List.length_append, h]
        simp [List.range_succ]
  · simp [hj, h]

theorem foldl_labelStep_snd_range : ∀ (files : List SampleFile)
    (acc : List Nat × List (String × Nat)),
    acc.2.map Prod.snd = List.range acc.2.length →
    (files.foldl labelStep acc).2.map Prod.snd
      = List.range (files.foldl labelStep acc).2.length := by
  intro files
  induction files with
  | nil => intro acc h; simpa using h
  | cons f rest ih =>
    intro acc h
    rw [List.foldl_cons]
    exact ih _ (labelStep_snd_range acc f h)

theorem snd_range_index (m : List (String × Nat))
    (hm : m.map Prod.snd = List.range m.length) :
    ∀ p ∈ m, m[p.2]? = some p := by
  intro p hp
  obtain ⟨i, hi, hgi⟩ := List.getElem_of_mem hp
  have hsnd : p.2 = i := by
    have h1 : (m.map Prod.snd)[i]? = some p.2 := by
      rw [List.getElem?_map, List.getElem?_eq_getElem hi, hgi]
      rfl
    rw [hm] at h1
    have h2 : (List.range m.length)[i]? = some i :=
      List.getElem?_range (by simpa using hi)
    rw [h1] at h2
    injection h2
  rw [hsnd, List.getElem?_eq_getElem hi, hgi]

theorem snd_inj (m : List (String × Nat))
    (hm : m.map Prod.snd = List.range m.length) :
    ∀ p ∈ m, ∀ q ∈ m, p.2 = q.2 → p = q := by
  intro p hp q hq he
  have h1 := snd_range_index m hm p hp
  have h2 := snd_range_index m hm q hq
  rw [← he] at h2
  rw [h1] at h2
  injection h2

theorem lookup_eq_of_nodup_keys {α β : Type} [BEq α] [LawfulBEq α] :
    ∀ (d : List (α × β)), (d.map Prod.fst).Nodup →
    ∀ (a : α) (b : β), (a, b) ∈ d → d.lookup a = some b := by
  intro d
  induction d with
  | nil => intro _ a b h; simp at h
  | cons p rest ih =>
    intro hd a b hmem
    obtain ⟨k, v⟩ := p
    rw [List.map_cons] at hd
    obtain ⟨hfst, hrest⟩ := List.nodup_cons.mp hd
    rcases List.mem_cons.mp hmem with heq | hmem'
    · have hk : k = a := by
        have := congrArg Prod.fst heq
        simp at this
        exact this.symm
      have hv : v = b := by
        have := congrArg Prod.snd heq
        simp at this
        exact this.symm
      subst hk
      subst hv
      simp [List.lookup]
    · have hka : ¬ (a == k) = true := by
        intro habs
        have : a = k := eq_of_beq habs
        subst this
        exact hfst (by simpa using List.mem_map_of_mem Prod.fst hmem')
      simp only [List.lookup, hka]
      exact ih hrest a b hmem'

theorem invert_keys (m : List (String × Nat)) :
    (invertMap m).map Prod.fst = m.map Prod.snd := by
  unfold invertMap
  rw [List.map_map]
  rfl

/-- C8: after a successful training run the persisted composite-to-label
map is injective (distinct composites receive distinct integer labels),
and the inverted dict `inv_label_map` recovers the exact original
composite for every entry's label. -/
theorem c8_label_map_roundtrip (files : List SampleFile)
    (labels : List Nat) (lmap : List (String × Nat))
    (h : train_face_recognizer files = some (labels, lmap)) :
    (∀ p ∈ lmap, ∀ q ∈ lmap, p.2 = q.2 → p = q)
    ∧ (∀ (k : String) (l : Nat), (k, l) ∈ lmap →
        dictGet (invertMap lmap) l "Unknown" = k) := by
  have hfold : lmap = (files.foldl labelStep ([], [])).2 := by
    unfold train_face_recognizer at h
    by_cases he : (files.foldl labelStep ([], [])).1.isEmpty
    · simp [he] at h
    · simp only [he, if_false] at h
      have := congrArg Prod.snd (Option.some.inj h)
      simp at this
      exact this.symm
  have hrange : lmap.map Prod.snd = List.range lmap.length := by
    rw [hfold]
    exact foldl_labelStep_snd_range files ([], []) (by simp)
  refine ⟨snd_inj lmap hrange, ?_⟩
  intro k l hmem
  have hndr : (((invertMap lmap).reverse).map Prod.fst).Nodup := by
    rw [List.map_reverse, List.nodup_reverse, invert_keys, hrange]
    exact List.nodup_range _
  have hmem' : (l, k) ∈ (invertMap lmap).reverse := by
    rw [List.mem_reverse]
    exact List.mem_map_of_mem (fun p => (p.2, p.1)) hmem
  have hlk := lookup_eq_of_nodup_keys ((invertMap lmap).reverse) hndr l k hmem'
  unfold dictGet
  rw [hlk]
  rfl

/-- Witness for `c8_label_map_roundtrip`: training on Carol's and Dave's
samples, label 1 inverts back to Dave's composite. -/
theorem c8_label_map_roundtrip_check :
    dictGet (invertMap [("batch_A/department_B/student_Carol", 0),
        ("batch_A/department_B/student_Dave", 1)]) 1 "Unknown"
      = "batch_A/department_B/student_Dave" :=
  (c8_label_map_roundtrip twoStudentFiles [0, 0, 1, 1]
      [("batch_A/department_B/student_Carol", 0), ("batch_A/department_B/student_Dave", 1)]
      (by decide)).2 "batch_A/department_B/student_Dave" 1 (by decide)

/-- Counterexample for C9: with 5 samples captured, the interleaving in
which request 0 passes the count check and releases the lock, request 1
then acquires the lock and also passes the check while request 0 has not
yet launched, ends with both requests having launched a training run —
the claimed mutual exclusion of the read-then-act sequence does not hold
because `Thread(...).start()` sits outside the `with global_lock` block. -/
theorem c9_lock_race_counterexample :
    tmRun [false, false, false, true, false, true, true, true] (tmInit 5)
      = ⟨true, 5, 2, TPC.done, TPC.done⟩ := by decide

theorem stepPC_good (pc : TPC) (lf : Bool) (c : Nat) (hc : 5 ≤ c)
    (h1 : pc ≠ TPC.earlyChecked) (h2 : pc ≠ TPC.earlyDone) :
    (stepPC pc lf c).1 ≠ TPC.earlyChecked ∧ (stepPC pc lf c).1 ≠ TPC.earlyDone
    ∧ tpcLaunched (stepPC pc lf c).1 = tpcLaunched pc + (stepPC pc lf c).2.2 := by
  cases pc with
  | start => cases lf <;> simp [stepPC, tpcLaunched]
  | locked =>
    have hlt : ¬ c < 5 := by omega
    simp [stepPC, hlt, tpcLaunched]
  | checked => simp [stepPC, tpcLaunched]
  | earlyChecked => exact absurd rfl h1
  | released => simp [stepPC, tpcLaunched]
  | done => simp [stepPC, tpcLaunched]
  | earlyDone => exact absurd rfl h2

theorem tmStep_inv (t : Bool) (s : TMState) (h : tmInv s) : tmInv (tmStep t s) := by
  obtain ⟨hc, hl, h00, h01, h10, h11⟩ := h
  cases t with
  | false =>
    obtain ⟨g1, g2, g3⟩ := stepPC_good s.pc0 s.lockFree s.count hc h00 h01
    refine ⟨hc, ?_, g1, g2, h10, h11⟩
    show s.launches + (stepPC s.pc0 s.lockFree s.count).2.2
        = tpcLaunched (stepPC s.pc0 s.lockFree s.count).1 + tpcLaunched s.pc1
    rw [g3]
    omega
  | true =>
    obtain ⟨g1, g2, g3⟩ := stepPC_good s.pc1 s.lockFree s.count hc h10 h11
    refine ⟨hc, ?_, h00, h01, g1, g2⟩
    show s.launches + (stepPC s.pc1 s.lockFree s.count).2.2
        = tpcLaunched s.pc0 + tpcLaunched (stepPC s.pc1 s.lockFree s.count).1
    rw [g3]
    omega

theorem tmRun_inv : ∀ (sched : List Bool) (s : TMState), tmInv s → tmInv (tmRun sched s) := by
  intro sched
  induction sched with
  | nil => intro s h; exact h
  | cons t rest ih =>
    intro s h
    have hstep : tmRun (t :: rest) s = tmRun rest (tmStep t s) := rfl
    rw [hstep]
    exact ih _ (tmStep_inv t s h)

/-- C9 (amended): only the read of `registration_count` and the `≥ 5`
check run while holding the global lock; the `Thread(...).start()` launch
happens after the `with` block releases it.  Consequently two concurrent
trigger requests starting with at least 5 captured samples both observe
"enough samples": under every interleaving in which both requests run to
completion, exactly two training runs are launched. -/
theorem c9_check_outside_lock (sched : List Bool) (c : Nat) (hc : 5 ≤ c)
    (h0 : (tmRun sched (tmInit c)).pc0 = TPC.done)
    (h1 : (tmRun sched (tmInit c)).pc1 = TPC.done) :
    (tmRun sched (tmInit c)).launches = 2 := by
  have hinit : tmInv (tmInit c) := by
    refine ⟨hc, ?_, ?_, ?_, ?_, ?_⟩ <;> simp [tmInit, tpcLaunched]
  obtain ⟨_, hl, _⟩ := tmRun_inv sched (tmInit c) hinit
  rw [h0, h1] at hl
  simpa [tpcLaunched] using hl

/-- Witness for `c9_check_outside_lock`: a serialized schedule in which
both requests complete launches two training runs. -/
theorem c9_check_outside_lock_check :
    (tmRun [false, false, false, false, true, true, true, true] (tmInit 5)).launches = 2 :=
  c9_check_outside_lock [false, false, false, false, true, true, true, true] 5
    (by decide) (by decide) (by decide)
